import Mathlib

/-!
Shallow embedding of the habit-tracker backend (TypeScript / Express / SQLite)
and proofs about its core logic.

Time is modelled in milliseconds as `Int` (the value of `Date.getTime()`),
with the day boundary at multiples of `msPerDay` (UTC).  A SQLite
`date(completed_at)` projection followed by `new Date(...)` yields the
midnight that starts the entry's day, modelled by `sqlDate`.

The database is modelled as an explicit state (`DBState`) holding the two
tables `habits` and `habit_entries` of the schema, with autoincrement
counters.  Fallible queries are modelled with `Except String`; the
`...Caught` wrappers reproduce the try/catch blocks of the source.
-/

/-- Milliseconds per day: the `1000 * 60 * 60 * 24` divisor used by both
streak implementations. -/
def msPerDay : Int := 1000 * 60 * 60 * 24

/-- Day number of a timestamp: which calendar day (UTC) the instant falls in. -/
def dayOf (t : Int) : Int := Int.fdiv t msPerDay

/-- `d.setHours(0, 0, 0, 0)`: normalizes a timestamp to the midnight that
starts its day. -/
def normalizeMidnight (t : Int) : Int := dayOf t * msPerDay

/-- SQLite `date(completed_at)` parsed back with `new Date(...)`: the
midnight of the entry's day.  Both streak implementations fetch entry dates
through exactly this projection. -/
def sqlDate (t : Int) : Int := normalizeMidnight t

/-- The loop of `calculateStreak` in `src/backend/src/index.ts` (lines
359-371): each fetched entry date is normalized to midnight,
`diffDays = Math.floor((currentDate - entryDate) / msPerDay)`; when
`diffDays <= 1` the streak is incremented and the cursor moves to the entry
date, otherwise the loop breaks. -/
def streakLoop : List Int → Int → Nat → Nat
  | [], _, streak => streak
  | d :: rest, currentDate, streak =>
    let entryDate := normalizeMidnight d
    let diffDays := Int.fdiv (currentDate - entryDate) msPerDay
    if diffDays ≤ 1 then streakLoop rest entryDate (streak + 1)
    else streak

/-- `calculateStreak` from `src/backend/src/index.ts` (lines 346-378): on an
empty entry list it returns 0, otherwise it runs the loop starting from the
current time normalized to midnight (`currentDate.setHours(0,0,0,0)`). -/
def calculateStreak (entries : List Int) (now : Int) : Nat :=
  if entries.isEmpty then 0
  else streakLoop entries (normalizeMidnight now) 0

namespace HabitRepository

/-- The loop of `HabitRepository.calculateStreak` in
`src/backend/src/repositories/habitRepository.ts` (lines 94-104): identical
to the loop in `index.ts` except that no `setHours` normalization is applied
to the cursor or to the entry dates. -/
def streakLoop : List Int → Int → Nat → Nat
  | [], _, streak => streak
  | d :: rest, currentDate, streak =>
    let diffDays := Int.fdiv (currentDate - d) msPerDay
    if diffDays ≤ 1 then streakLoop rest d (streak + 1)
    else streak

/-- `HabitRepository.calculateStreak` (lines 84-111): no empty-list check and
no midnight normalization of the starting cursor `new Date()`. -/
def calculateStreak (entries : List Int) (now : Int) : Nat :=
  streakLoop entries now 0

end HabitRepository

/-- `calculateStreak` of `index.ts` together with its surrounding try/catch:
a failure of the entries query (`Except.error`) is caught and the function
returns 0 instead of propagating the error. -/
def calculateStreakCaught (fetched : Except String (List Int)) (now : Int) : Nat :=
  match fetched with
  | Except.error _ => 0
  | Except.ok entries => calculateStreak entries now

/-- `HabitRepository.calculateStreak` together with its try/catch: a failure
of the entries query is caught and yields 0. -/
def repoCalculateStreakCaught (fetched : Except String (List Int)) (now : Int) : Nat :=
  match fetched with
  | Except.error _ => 0
  | Except.ok entries => HabitRepository.calculateStreak entries now

/-- Modelled from the spec's words (§4.2), for comparison with the code:
input is the calendar day number of every entry in descending order plus the
current day; cursor starts at the current day, streak at 0; for each entry
the gap is the whole-day difference from the cursor; a gap of at most 1
increments the streak and moves the cursor to the entry's day, a larger gap
stops the scan. -/
def specStreakLoop : List Int → Int → Nat → Nat
  | [], _, streak => streak
  | d :: rest, cursor, streak =>
    if cursor - d ≤ 1 then specStreakLoop rest d (streak + 1)
    else streak

/-- Modelled from the spec's words (§4.2): the streak of a list of entry day
numbers, scanned from the current day. -/
def specStreak (entryDays : List Int) (currentDay : Int) : Nat :=
  specStreakLoop entryDays currentDay 0

theorem msPerDay_pos : (0 : Int) < msPerDay := by norm_num [msPerDay]

theorem msPerDay_ne_zero : (msPerDay : Int) ≠ 0 := by norm_num [msPerDay]

/-- Key arithmetic fact: the floored whole-day difference between an
arbitrary instant and a day-aligned instant is the difference of their day
numbers. -/
theorem fdiv_sub_mul_msPerDay (c j : Int) :
    Int.fdiv (c - j * msPerDay) msPerDay = dayOf c - j := by
  have hpos : (0 : Int) ≤ msPerDay := le_of_lt msPerDay_pos
  have hrw : c - j * msPerDay = c + (-j) * msPerDay := by ring
  rw [hrw, Int.fdiv_eq_ediv _ hpos, Int.add_mul_ediv_right _ _ msPerDay_ne_zero]
  unfold dayOf
  rw [Int.fdiv_eq_ediv _ hpos]
  ring

theorem dayOf_mul_msPerDay (j : Int) : dayOf (j * msPerDay) = j :=
  Int.mul_fdiv_cancel j msPerDay_ne_zero

theorem dayOf_normalizeMidnight (t : Int) : dayOf (normalizeMidnight t) = dayOf t :=
  dayOf_mul_msPerDay (dayOf t)

/-- The `index.ts` loop started at a day-aligned cursor computes exactly the
spec's loop over day numbers. -/
theorem streakLoop_eq_spec (l : List Int) (k : Int) (streak : Nat) :
    streakLoop l (k * msPerDay) streak = specStreakLoop (l.map dayOf) k streak := by
  induction l generalizing k streak with
  | nil => rfl
  | cons d rest ih =>
    show (if Int.fdiv (k * msPerDay - normalizeMidnight d) msPerDay ≤ 1 then
            streakLoop rest (normalizeMidnight d) (streak + 1)
          else streak) = _
    rw [show normalizeMidnight d = dayOf d * msPerDay from rfl,
        fdiv_sub_mul_msPerDay, dayOf_mul_msPerDay]
    show _ = (if k - dayOf d ≤ 1 then specStreakLoop (rest.map dayOf) (dayOf d) (streak + 1)
              else streak)
    by_cases h : k - dayOf d ≤ 1
    · simp only [h, if_true, ih]
    · simp only [h, if_false]

/-- The repository loop applied to day-aligned entries computes exactly the
spec's loop over day numbers, for an arbitrary (unaligned) cursor. -/
theorem repoStreakLoop_eq_spec (days : List Int) (c : Int) (streak : Nat) :
    HabitRepository.streakLoop (days.map (fun j => j * msPerDay)) c streak =
      specStreakLoop days (dayOf c) streak := by
  induction days generalizing c streak with
  | nil => rfl
  | cons j rest ih =>
    show (if Int.fdiv (c - j * msPerDay) msPerDay ≤ 1 then
            HabitRepository.streakLoop (rest.map (fun j => j * msPerDay)) (j * msPerDay) (streak + 1)
          else streak) = _
    rw [fdiv_sub_mul_msPerDay]
    show _ = (if dayOf c - j ≤ 1 then specStreakLoop rest j (streak + 1) else streak)
    by_cases h : dayOf c - j ≤ 1
    · simp only [h, if_true, ih, dayOf_mul_msPerDay]
    · simp only [h, if_false]

theorem calculateStreak_eq_spec (entries : List Int) (now : Int) :
    calculateStreak entries now = specStreak (entries.map dayOf) (dayOf now) := by
  cases entries with
  | nil => rfl
  | cons d rest =>
    show streakLoop (d :: rest) (normalizeMidnight now) 0 = _
    rw [show normalizeMidnight now = dayOf now * msPerDay from rfl]
    exact streakLoop_eq_spec (d :: rest) (dayOf now) 0

theorem repoCalculateStreak_eq_spec (raws : List Int) (now : Int) :
    HabitRepository.calculateStreak (raws.map sqlDate) now =
      specStreak (raws.map dayOf) (dayOf now) := by
  have hmap : raws.map sqlDate = (raws.map dayOf).map (fun j => j * msPerDay) := by
    rw [List.map_map]
    rfl
  rw [HabitRepository.calculateStreak, hmap]
  exact repoStreakLoop_eq_spec (raws.map dayOf) now 0

/-- The spec loop on a run of `n` copies of day `k` followed by day `k - 1`:
every copy increments, so the result over-counts duplicates. -/
theorem specStreakLoop_replicate (n : Nat) (k : Int) (streak : Nat) :
    specStreakLoop (List.replicate n k ++ [k - 1]) k streak = streak + n + 1 := by
  induction n generalizing streak with
  | zero =>
    show (if k - (k - 1) ≤ 1 then specStreakLoop [] (k - 1) (streak + 1) else streak) = _
    rw [if_pos (by omega)]
    rfl
  | succ n ih =>
    show (if k - k ≤ 1 then
            specStreakLoop (List.replicate n k ++ [k - 1]) k (streak + 1)
          else streak) = _
    rw [if_pos (by omega), ih]
    omega

/-- Claim C1: both streak implementations follow the algorithm specified in
§4.2 — starting from the current date normalized to midnight with streak 0,
they scan the entry dates in descending order, increment and advance the
cursor on a whole-day gap of at most 1, and stop at the first larger gap.
`specStreak` is the spec's algorithm over day numbers; the repository
version receives its entry dates through the `date(completed_at)` projection
(`sqlDate`) of its query. -/
theorem c1_streak_follows_spec (entries raws : List Int) (now : Int) :
    calculateStreak entries now = specStreak (entries.map dayOf) (dayOf now)
    ∧ HabitRepository.calculateStreak (raws.map sqlDate) now =
        specStreak (raws.map dayOf) (dayOf now) :=
  ⟨calculateStreak_eq_spec entries now, repoCalculateStreak_eq_spec raws now⟩

/-- Claim C2: duplicate same-day entries over-count the streak — on `n`
entries dated day `k` (the current day) followed by one entry dated day
`k - 1`, both implementations return `n + 1`, one increment per entry rather
than per distinct day; in particular today, today, yesterday gives 3. -/
theorem c2_duplicate_day_over_count (n : Nat) (k now : Int) (h : dayOf now = k) :
    calculateStreak (List.replicate n (k * msPerDay) ++ [(k - 1) * msPerDay]) now = n + 1
    ∧ HabitRepository.calculateStreak
        (List.replicate n (k * msPerDay) ++ [(k - 1) * msPerDay]) now = n + 1 := by
  have hmap : (List.replicate n (k * msPerDay) ++ [(k - 1) * msPerDay]) =
      (List.replicate n k ++ [k - 1]).map (fun j => j * msPerDay) := by
    rw [List.map_append, List.map_replicate]
    rfl
  constructor
  · rw [calculateStreak_eq_spec, hmap, List.map_map]
    have hcomp : (dayOf ∘ fun j => j * msPerDay) = id :=
      funext fun j => dayOf_mul_msPerDay j
    rw [hcomp, List.map_id, h]
    show specStreakLoop (List.replicate n k ++ [k - 1]) k 0 = n + 1
    rw [specStreakLoop_replicate]
    omega
  · rw [hmap, HabitRepository.calculateStreak,
        repoStreakLoop_eq_spec (List.replicate n k ++ [k - 1]) now 0, h]
    rw [specStreakLoop_replicate]
    omega

/-- Witness for C2 at a concrete input: two entries today (day 0) and one
yesterday, current time 5 ms after midnight, give streak 3 in both
implementations. -/
theorem c2_duplicate_day_over_count_witness :
    dayOf 5 = 0
    ∧ calculateStreak
        (List.replicate 2 ((0 : Int) * msPerDay) ++ [((0 : Int) - 1) * msPerDay]) 5 = 2 + 1
    ∧ HabitRepository.calculateStreak
        (List.replicate 2 ((0 : Int) * msPerDay) ++ [((0 : Int) - 1) * msPerDay]) 5 = 2 + 1 :=
  ⟨by decide, (c2_duplicate_day_over_count 2 0 5 (by decide)).1,
    (c2_duplicate_day_over_count 2 0 5 (by decide)).2⟩

/-- Claim C3: a habit with no completion-entries has streak 0 in both
implementations, for every current time. -/
theorem c3_no_entries_streak_zero (now : Int) :
    calculateStreak [] now = 0 ∧ HabitRepository.calculateStreak [] now = 0 :=
  ⟨rfl, rfl⟩

/-- Claim C4: a failure inside the streak computation (a failing entries
query, modelled as `Except.error`) is caught and yields 0 in both
implementations; no error propagates to the caller. -/
theorem c4_failure_degrades_to_zero (e : String) (now : Int) :
    calculateStreakCaught (Except.error e) now = 0
    ∧ repoCalculateStreakCaught (Except.error e) now = 0 :=
  ⟨rfl, rfl⟩

/-- Claim C10: on the entry dates both implementations actually fetch — the
`date(completed_at)` projection of the stored timestamps, in descending
order — the repository's `calculateStreak` and the standalone
`calculateStreak` of `index.ts` agree for every stored entry list and every
current time; the repository's unnormalized starting cursor changes no
result. -/
theorem c10_implementations_agree (raws : List Int) (now : Int) :
    HabitRepository.calculateStreak (raws.map sqlDate) now =
      calculateStreak (raws.map sqlDate) now := by
  rw [repoCalculateStreak_eq_spec raws now, calculateStreak_eq_spec, List.map_map]
  have hcomp : (dayOf ∘ sqlDate) = dayOf := funext fun t => dayOf_normalizeMidnight t
  rw [hcomp]

/-- A JSON value as carried over the REST surface (only the shapes the
`target_days` payloads need: a string, or an array of strings). -/
inductive Json where
  | str : String → Json
  | arrStr : List String → Json
deriving DecidableEq

/-- One character of `JSON.stringify` string output: quote and backslash are
escaped, other characters pass through. -/
def jsonEscapeChar (c : Char) : String :=
  if c = '"' then "\\\"" else if c = '\\' then "\\\\" else String.singleton c

/-- The body of a `JSON.stringify` string literal. -/
def jsonEscape (s : String) : String :=
  String.join (s.toList.map jsonEscapeChar)

/-- `JSON.stringify` on an array of strings, as applied to `target_days` by
`HabitRepository.create` and the `createHabit` / `updateHabit` handlers. -/
def jsonStringifyList (xs : List String) : String :=
  "[" ++ String.intercalate "," (xs.map (fun s => "\"" ++ jsonEscape s ++ "\"")) ++ "]"

/-- The habit fields a client supplies (body of POST /habits): `target_days`
arrives as an array of weekday names. -/
structure HabitInput where
  name : String
  description : String
  frequency : String
  target_days : List String
  priority : Int
  category : String
deriving DecidableEq

/-- A row of the `habits` table: `target_days` is a TEXT column holding the
JSON-encoded string. -/
structure HabitRow where
  id : Nat
  name : String
  description : String
  frequency : String
  target_days : String
  priority : Int
  category : String
  created_at : String
deriving DecidableEq

/-- A row of the `habit_entries` table. -/
structure EntryRow where
  id : Nat
  habit_id : Nat
  completed_at : String
deriving DecidableEq

/-- The SQLite database: the two tables plus their autoincrement counters. -/
structure DBState where
  habits : List HabitRow
  entries : List EntryRow
  nextHabitId : Nat
  nextEntryId : Nat
deriving DecidableEq

namespace HabitRepository

/-- `HabitRepository.create` (and the `createHabit` handler): INSERT of the
six supplied fields with `target_days` JSON-stringified, `created_at`
defaulting to the current timestamp, returning the generated id
(`result.lastID`). -/
def create (s : DBState) (input : HabitInput) (nowTs : String) : Nat × DBState :=
  let row : HabitRow :=
    { id := s.nextHabitId, name := input.name, description := input.description,
      frequency := input.frequency, target_days := jsonStringifyList input.target_days,
      priority := input.priority, category := input.category, created_at := nowTs }
  (s.nextHabitId, { s with habits := s.habits ++ [row], nextHabitId := s.nextHabitId + 1 })

/-- `SELECT * FROM habits WHERE id = ?` via `db.get`: the first matching row
or `none`.  Run by `HabitRepository.findById`, by the `getHabitById` handler
and by the existence check of `completeHabit`. -/
def findById (s : DBState) (id : Nat) : Option HabitRow :=
  s.habits.find? (fun r => r.id == id)

/-- ORDER BY priority DESC, created_at DESC as a Boolean "precedes or ties"
relation on rows. -/
def habitOrd (a b : HabitRow) : Bool :=
  if a.priority = b.priority then decide (b.created_at ≤ a.created_at)
  else decide (b.priority ≤ a.priority)

/-- `HabitRepository.findAll` (and the query of the `getHabits` handler):
`SELECT * FROM habits ORDER BY priority DESC, created_at DESC`. -/
def findAll (s : DBState) : List HabitRow :=
  s.habits.mergeSort habitOrd

/-- `findAll` with its try/catch: an underlying query failure is replaced by
the wrapped message, never the raw error. -/
def findAllCaught (s : DBState) (queryFailure : Option String) :
    Except String (List HabitRow) :=
  match queryFailure with
  | some _ => Except.error "Failed to fetch habits from database"
  | none => Except.ok (findAll s)

/-- `findById` with its try/catch: absence is the `ok none` sentinel, an
underlying query failure becomes the wrapped message. -/
def findByIdCaught (s : DBState) (id : Nat) (queryFailure : Option String) :
    Except String (Option HabitRow) :=
  match queryFailure with
  | some _ => Except.error ("Failed to fetch habit with id " ++ toString id)
  | none => Except.ok (findById s id)

/-- First statement of `HabitRepository.delete`:
`DELETE FROM habit_entries WHERE habit_id = ?`. -/
def deleteEntriesStep (s : DBState) (id : Nat) : DBState :=
  { s with entries := s.entries.filter (fun e => e.habit_id != id) }

/-- Second statement of `HabitRepository.delete`:
`DELETE FROM habits WHERE id = ?`. -/
def deleteHabitRowStep (s : DBState) (id : Nat) : DBState :=
  { s with habits := s.habits.filter (fun r => r.id != id) }

/-- `HabitRepository.delete` (and the `deleteHabit` handler): the habit's
completion-entries are deleted first, then the habit row. -/
def delete (s : DBState) (id : Nat) : DBState :=
  deleteHabitRowStep (deleteEntriesStep s id) id

end HabitRepository

/-- Responses of POST /habits/:id/complete. -/
inductive CompleteResponse where
  | notFound
  | success
deriving DecidableEq

/-- The `completeHabit` handler of `index.ts` (lines 261-287): it first runs
`SELECT * FROM habits WHERE id = ?`; absence gives a 404 and no insert;
otherwise one entry is inserted whose timestamp is
`completed_at || new Date().toISOString()` — JS `||` falls through to the
current time both when `completed_at` is absent and when it is the empty
string. -/
def completeHabit (s : DBState) (id : Nat) (completed_at : Option String)
    (nowIso : String) : CompleteResponse × DBState :=
  match HabitRepository.findById s id with
  | none => (CompleteResponse.notFound, s)
  | some _ =>
    let ts := match completed_at with
      | none => nowIso
      | some v => if v = "" then nowIso else v
    (CompleteResponse.success,
      { s with
        entries := s.entries ++ [{ id := s.nextEntryId, habit_id := id, completed_at := ts }],
        nextEntryId := s.nextEntryId + 1 })

/-- Responses of GET /habits/:id. -/
inductive GetHabitResponse where
  | ok : HabitRow → GetHabitResponse
  | notFound
  | serverError : String → GetHabitResponse
deriving DecidableEq

/-- The `getHabitById` handler of `index.ts` (lines 172-190): 404 when the
row is absent, 500 with a generic message when the query fails. -/
def getHabitById (s : DBState) (id : Nat) (queryFailure : Option String) :
    GetHabitResponse :=
  match queryFailure with
  | some _ => GetHabitResponse.serverError "Failed to fetch habit"
  | none =>
    match HabitRepository.findById s id with
    | none => GetHabitResponse.notFound
    | some h => GetHabitResponse.ok h

/-- The JSON value the API returns for a stored row's `target_days`: the
TEXT column is never parsed back, so it is a JSON string. -/
def returnedTargetDays (r : HabitRow) : Json := Json.str r.target_days

/-- The JSON value a client supplies for `target_days`: an array of weekday
names. -/
def suppliedTargetDays (ds : List String) : Json := Json.arrStr ds

/-- An empty database. -/
def db0 : DBState := { habits := [], entries := [], nextHabitId := 1, nextEntryId := 1 }

/-- A sample creation payload. -/
def sampleInput : HabitInput :=
  { name := "Run", description := "morning run", frequency := "custom",
    target_days := ["monday", "wednesday"], priority := 2, category := "health" }

/-- A sample stored habit row with id 1. -/
def sampleRow : HabitRow :=
  { id := 1, name := "Run", description := "morning run", frequency := "custom",
    target_days := "[\"monday\",\"wednesday\"]", priority := 2, category := "health",
    created_at := "2024-01-01 00:00:00" }

/-- A database holding `sampleRow` and one of its completion-entries, plus an
unrelated habit with id 2 and one of its entries. -/
def db1 : DBState :=
  { habits := [sampleRow,
      { id := 2, name := "Read", description := "", frequency := "daily",
        target_days := "[]", priority := 1, category := "", created_at := "2024-01-02 00:00:00" }],
    entries := [{ id := 1, habit_id := 1, completed_at := "2024-01-03T08:00:00.000Z" },
                { id := 2, habit_id := 2, completed_at := "2024-01-03T09:00:00.000Z" }],
    nextHabitId := 3, nextEntryId := 3 }

/-- `db.get` on a table whose existing rows all have ids different from a
newly appended row finds exactly that row. -/
theorem find?_append_fresh (l : List HabitRow) (row : HabitRow) (tid : Nat)
    (hid : row.id = tid) (h : ∀ r ∈ l, r.id ≠ tid) :
    (l ++ [row]).find? (fun r => r.id == tid) = some row := by
  induction l with
  | nil => simp [List.find?, hid]
  | cons a rest ih =>
    have ha : a.id ≠ tid := h a (by simp)
    rw [List.cons_append, List.find?_cons_of_neg _ (by simp [ha])]
    exact ih fun r hr => h r (by simp [hr])

/-- Filtering out the rows of one id does not change what `db.get` finds for
any other id. -/
theorem find?_filter_ne (l : List HabitRow) (id otherId : Nat) (hne : otherId ≠ id) :
    (l.filter (fun r => r.id != id)).find? (fun r => r.id == otherId) =
      l.find? (fun r => r.id == otherId) := by
  induction l with
  | nil => rfl
  | cons a rest ih =>
    by_cases ha : a.id = id
    · have hmiss : a.id ≠ otherId := by
        rw [ha]
        exact fun hcontra => hne hcontra.symm
      rw [List.filter_cons_of_neg (by simp [ha]),
          List.find?_cons_of_neg _ (by simp [hmiss]), ih]
    · rw [List.filter_cons_of_pos (by simp [ha])]
      by_cases hfind : a.id = otherId
      · rw [List.find?_cons_of_pos _ (by simp [hfind]),
            List.find?_cons_of_pos _ (by simp [hfind])]
      · rw [List.find?_cons_of_neg _ (by simp [hfind]),
            List.find?_cons_of_neg _ (by simp [hfind]), ih]

/-- Claim C5 (amended): creating a habit and immediately fetching it by the
returned id yields a row whose name, description, frequency, priority and
category are identical to the input and whose `created_at` is the insertion
timestamp, but whose `target_days` is the JSON serialization of the supplied
array — the stored TEXT is never parsed back into an array.  The freshness
hypothesis models the autoincrement primary key. -/
theorem c5_create_then_fetch (s : DBState) (input : HabitInput) (nowTs : String)
    (hfresh : ∀ r ∈ s.habits, r.id ≠ s.nextHabitId) :
    HabitRepository.findById (HabitRepository.create s input nowTs).2
        (HabitRepository.create s input nowTs).1 =
      some { id := s.nextHabitId, name := input.name, description := input.description,
             frequency := input.frequency,
             target_days := jsonStringifyList input.target_days,
             priority := input.priority, category := input.category,
             created_at := nowTs } := by
  simp only [HabitRepository.create, HabitRepository.findById]
  exact find?_append_fresh s.habits _ s.nextHabitId rfl hfresh

/-- Witness for C5 at a concrete input: the fetched `target_days` is the
string of the serialized array. -/
theorem c5_create_then_fetch_witness :
    HabitRepository.findById (HabitRepository.create db0 sampleInput "2024-01-01 00:00:00").2
        (HabitRepository.create db0 sampleInput "2024-01-01 00:00:00").1 =
      some { id := 1, name := "Run", description := "morning run", frequency := "custom",
             target_days := "[\"monday\",\"wednesday\"]", priority := 2, category := "health",
             created_at := "2024-01-01 00:00:00" } := by
  have h := c5_create_then_fetch db0 sampleInput "2024-01-01 00:00:00"
    (by intro r hr; simp [db0] at hr)
  exact h.trans (by decide)

/-- Counterexample to claim C5 as stated: after creating a habit with
`target_days = ["monday", "wednesday"]`, the fetched habit's `target_days`
is not the supplied array of weekday names — the API returns the JSON string
`"[\"monday\",\"wednesday\"]"`, a different JSON value. -/
theorem c5_target_days_counterexample :
    (HabitRepository.findById (HabitRepository.create db0 sampleInput "2024-01-01 00:00:00").2
        (HabitRepository.create db0 sampleInput "2024-01-01 00:00:00").1).map returnedTargetDays
      ≠ some (suppliedTargetDays sampleInput.target_days) := by
  decide

/-- Claim C6: after `delete id`, no completion-entry with `habit_id = id`
remains and the habit row is gone (entries removed by the first statement,
the row by the second), while fetching any other id is unchanged and every
completion-entry of a different habit is kept exactly as it was. -/
theorem c6_delete_cascades (s : DBState) (id : Nat) :
    (∀ e ∈ (HabitRepository.delete s id).entries, e.habit_id ≠ id)
    ∧ HabitRepository.findById (HabitRepository.delete s id) id = none
    ∧ (∀ otherId : Nat, otherId ≠ id →
        HabitRepository.findById (HabitRepository.delete s id) otherId =
          HabitRepository.findById s otherId)
    ∧ (∀ e : EntryRow, e.habit_id ≠ id →
        (e ∈ (HabitRepository.delete s id).entries ↔ e ∈ s.entries)) := by
  refine ⟨?_, ?_, ?_, ?_⟩
  · intro e he
    simp only [HabitRepository.delete, HabitRepository.deleteHabitRowStep,
      HabitRepository.deleteEntriesStep, List.mem_filter, bne_iff_ne, ne_eq] at he
    exact he.2
  · apply List.find?_eq_none.mpr
    intro r hr
    simp only [HabitRepository.delete, HabitRepository.deleteHabitRowStep,
      HabitRepository.deleteEntriesStep, List.mem_filter, bne_iff_ne, ne_eq] at hr
    simp [hr.2]
  · intro otherId hne
    exact find?_filter_ne s.habits id otherId hne
  · intro e he
    simp [HabitRepository.delete, HabitRepository.deleteHabitRowStep,
      HabitRepository.deleteEntriesStep, List.mem_filter, he]

/-- Witness for C6 at a concrete database: deleting habit 1 removes its
entry, leaves habit 2 fetchable unchanged, keeps habit 2's entry, and habit
1 is no longer found. -/
theorem c6_delete_cascades_witness :
    (({ id := 2, habit_id := 2, completed_at := "2024-01-03T09:00:00.000Z" } : EntryRow).habit_id ≠ 1)
    ∧ HabitRepository.findById (HabitRepository.delete db1 1) 1 = none
    ∧ HabitRepository.findById (HabitRepository.delete db1 1) 2 = HabitRepository.findById db1 2
    ∧ (({ id := 2, habit_id := 2, completed_at := "2024-01-03T09:00:00.000Z" } : EntryRow)
          ∈ (HabitRepository.delete db1 1).entries
        ↔ ({ id := 2, habit_id := 2, completed_at := "2024-01-03T09:00:00.000Z" } : EntryRow)
          ∈ db1.entries) :=
  ⟨(c6_delete_cascades db1 1).1
      { id := 2, habit_id := 2, completed_at := "2024-01-03T09:00:00.000Z" } (by decide),
   (c6_delete_cascades db1 1).2.1,
   (c6_delete_cascades db1 1).2.2.1 2 (by decide),
   (c6_delete_cascades db1 1).2.2.2
      { id := 2, habit_id := 2, completed_at := "2024-01-03T09:00:00.000Z" } (by decide)⟩

/-- Claim C7 (amended): POST /habits/:id/complete returns 404 and leaves the
state (in particular the entry table) unchanged when no habit with the id
exists; otherwise it appends exactly one completion-entry for that habit and
responds success.  The appended timestamp is the supplied `completed_at`
when that is a non-empty string, and defaults to the current time both when
`completed_at` is absent and when it is the empty string (JS `||` treats ""
as falsy). -/
theorem c7_complete_endpoint (s : DBState) (id : Nat) (completed_at : Option String)
    (nowIso : String) :
    (HabitRepository.findById s id = none →
      completeHabit s id completed_at nowIso = (CompleteResponse.notFound, s))
    ∧ (∀ h : HabitRow, HabitRepository.findById s id = some h →
      completeHabit s id completed_at nowIso =
        (CompleteResponse.success,
          { s with
            entries := s.entries ++
              [{ id := s.nextEntryId, habit_id := id,
                 completed_at :=
                   match completed_at with
                   | none => nowIso
                   | some v => if v = "" then nowIso else v }],
            nextEntryId := s.nextEntryId + 1 })) := by
  constructor
  · intro habsent
    simp [completeHabit, habsent]
  · intro h hfound
    simp [completeHabit, hfound]

/-- Witness for C7 at concrete inputs: completing a missing habit is a 404
with the database untouched; completing habit 1 of `db1` with a supplied
timestamp appends exactly that entry. -/
theorem c7_complete_endpoint_witness :
    completeHabit db0 7 none "2024-05-05T00:00:00.000Z" = (CompleteResponse.notFound, db0)
    ∧ completeHabit db1 1 (some "2024-04-04T00:00:00.000Z") "2024-05-05T00:00:00.000Z" =
        (CompleteResponse.success,
          { db1 with
            entries := db1.entries ++
              [{ id := 3, habit_id := 1, completed_at := "2024-04-04T00:00:00.000Z" }],
            nextEntryId := 4 }) := by
  constructor
  · exact (c7_complete_endpoint db0 7 none "2024-05-05T00:00:00.000Z").1 rfl
  · have h := (c7_complete_endpoint db1 1 (some "2024-04-04T00:00:00.000Z")
      "2024-05-05T00:00:00.000Z").2 sampleRow rfl
    exact h.trans (by decide)

/-- Counterexample to claim C7 as stated: with a habit present and a
supplied `completed_at` of `""`, the appended entry's timestamp is the
current time, not the supplied value — the entry list differs from the one
the claim predicts. -/
theorem c7_empty_completed_at_counterexample :
    ((completeHabit db1 1 (some "") "2024-05-05T00:00:00.000Z").2.entries.map
        EntryRow.completed_at ≠ db1.entries.map EntryRow.completed_at ++ [""])
    ∧ (completeHabit db1 1 (some "") "2024-05-05T00:00:00.000Z").2.entries.map
        EntryRow.completed_at =
          db1.entries.map EntryRow.completed_at ++ ["2024-05-05T00:00:00.000Z"] := by
  constructor
  · decide
  · decide

/-- The ORDER BY relation is transitive. -/
theorem habitOrd_trans (a b c : HabitRow)
    (hab : HabitRepository.habitOrd a b = true)
    (hbc : HabitRepository.habitOrd b c = true) :
    HabitRepository.habitOrd a c = true := by
  unfold HabitRepository.habitOrd at hab hbc ⊢
  by_cases h1 : a.priority = b.priority
  · by_cases h2 : b.priority = c.priority
    · have h3 : a.priority = c.priority := h1.trans h2
      rw [if_pos h1, decide_eq_true_iff] at hab
      rw [if_pos h2, decide_eq_true_iff] at hbc
      rw [if_pos h3, decide_eq_true_iff]
      exact le_trans hbc hab
    · have h3 : a.priority ≠ c.priority := by rw [h1]; exact h2
      rw [if_neg h2, decide_eq_true_iff] at hbc
      rw [if_neg h3, decide_eq_true_iff]
      omega
  · by_cases h2 : b.priority = c.priority
    · have h3 : a.priority ≠ c.priority := by rw [← h2]; exact h1
      rw [if_neg h1, decide_eq_true_iff] at hab
      rw [if_neg h3, decide_eq_true_iff]
      omega
    · rw [if_neg h1, decide_eq_true_iff] at hab
      rw [if_neg h2, decide_eq_true_iff] at hbc
      by_cases h3 : a.priority = c.priority
      · exfalso
        omega
      · rw [if_neg h3, decide_eq_true_iff]
        omega

/-- The ORDER BY relation is total. -/
theorem habitOrd_total (a b : HabitRow) :
    (HabitRepository.habitOrd a b || HabitRepository.habitOrd b a) = true := by
  unfold HabitRepository.habitOrd
  by_cases h : a.priority = b.priority
  · rw [if_pos h, if_pos h.symm]
    rcases le_total a.created_at b.created_at with hle | hle
    · simp [hle]
    · simp [hle]
  · rw [if_neg h, if_neg (Ne.symm h)]
    rcases le_total a.priority b.priority with hle | hle
    · simp [hle]
    · simp [hle]

/-- Claim C8: `findAll` returns exactly the stored habits (a permutation of
the table) in an order where every earlier row has higher priority, or equal
priority and no earlier creation time, than every later row; and a query
failure surfaces as the wrapped storage message, never the raw error. -/
theorem c8_findAll_ordered (s : DBState) (err : String) :
    (HabitRepository.findAll s).Perm s.habits
    ∧ List.Pairwise (fun a b => HabitRepository.habitOrd a b = true)
        (HabitRepository.findAll s)
    ∧ HabitRepository.findAllCaught s (some err) =
        Except.error "Failed to fetch habits from database" :=
  ⟨List.mergeSort_perm s.habits HabitRepository.habitOrd,
   List.sorted_mergeSort habitOrd_trans habitOrd_total s.habits,
   rfl⟩

/-- Claim C9: when no habit with the id exists, the repository's `findById`
returns the `ok none` sentinel (no error is thrown for absence) and the API
answers 404; an underlying query failure is surfaced as the wrapped
operation-specific message, never the raw error. -/
theorem c9_findById_absent (s : DBState) (id : Nat) (err : String)
    (habsent : HabitRepository.findById s id = none) :
    HabitRepository.findByIdCaught s id none = Except.ok none
    ∧ getHabitById s id none = GetHabitResponse.notFound
    ∧ HabitRepository.findByIdCaught s id (some err) =
        Except.error ("Failed to fetch habit with id " ++ toString id) := by
  refine ⟨?_, ?_, rfl⟩
  · show Except.ok (HabitRepository.findById s id) = Except.ok none
    rw [habsent]
  · simp [getHabitById, habsent]

/-- Witness for C9: fetching id 5 from the empty database. -/
theorem c9_findById_absent_witness :
    HabitRepository.findByIdCaught db0 5 none = Except.ok none
    ∧ getHabitById db0 5 none = GetHabitResponse.notFound
    ∧ HabitRepository.findByIdCaught db0 5 (some "SQLITE_BUSY") =
        Except.error "Failed to fetch habit with id 5" := by
  have h := c9_findById_absent db0 5 "SQLITE_BUSY" rfl
  exact ⟨h.1, h.2.1, h.2.2.trans (congrArg Except.error (by decide))⟩
